import Mathlib

/-!
Verification development for the go-compatible OrbitDB core
(entry format, canonical JSON, marshaler, direct channel, sync engine).

The JavaScript source is shallowly embedded: plain objects become Lean
structures or `JValue` trees, byte arrays become `List Nat`, thrown
exceptions become `Except String`, and the external collaborators
(DAG-CBOR codec, SHA-256 content ids, multibase CID rendering, the
identity signer/verifier) are passed in as explicit function parameters,
exactly as the spec treats them: pure capability contracts.
-/

/-- A structured value as manipulated by the JavaScript source: the
common model for JSON-serializable data, DAG-CBOR-encodable payloads and
the dynamic arguments of `Entry.create`.  `bytes` models `Uint8Array`,
`cidv` models a `CID` instance (carried as its canonical string). -/
inductive JValue where
  | null : JValue
  | bool (b : Bool) : JValue
  | num (n : Int) : JValue
  | str (s : String) : JValue
  | bytes (bs : List Nat) : JValue
  | cidv (c : String) : JValue
  | arr (xs : List JValue) : JValue
  | obj (fs : List (String × JValue)) : JValue

namespace JValue

/-- `Object.prototype.toString.call(v) === '[object Object]'`: true only
for plain objects (not arrays, not `Uint8Array`, not `CID`). -/
def isObj : JValue → Bool
  | .obj _ => true
  | _ => false

/-- `typeof v == 'object'` in JavaScript: objects, arrays, byte arrays,
CID instances and `null` all answer `object`. -/
def typeofObject : JValue → Bool
  | .obj _ => true
  | .arr _ => true
  | .bytes _ => true
  | .cidv _ => true
  | .null => true
  | _ => false

/-- `Array.isArray`. -/
def isArr : JValue → Bool
  | .arr _ => true
  | _ => false

/-- `v == null` (loose equality with `null`/`undefined` for a present
value). -/
def isNull : JValue → Bool
  | .null => true
  | _ => false

/-- First binding of a key in an object's field list (JavaScript object
keys are unique, so this is the object's property lookup). -/
def lookup (k : String) : JValue → Option JValue
  | .obj fs => (fs.find? (fun kv => kv.1 = k)).map Prod.snd
  | _ => none

end JValue

/-! ## Canonical JSON (src/utils/go-json.js: `keyJSONSort` + `JSON.stringify`)

`keyJSONSort` wraps a value in a lazily key-sorting `Proxy`.  The proxy's
`get` trap re-wraps values that are *plain objects* (`[object Object]`)
but returns arrays (and every other value) raw, so sorting propagates
through object fields yet stops at the first array: objects that are
elements of an array — or anywhere below one — are serialized with their
keys in insertion order.  The model materializes the tree the proxy
presents (`keyJSONSort` below, with a flag recording whether the current
node is proxied) and then serializes it with a plain `JSON.stringify`
model. -/

/-- Field comparison used by `Reflect.ownKeys(target).sort()`: ascending
key order (JavaScript compares the key strings; ties keep insertion
order because `sort` is stable, which insertion sort realizes). -/
def fieldLE (a b : String × JValue) : Prop := a.1 ≤ b.1

instance : DecidableRel fieldLE := fun a b => inferInstanceAs (Decidable (a.1 ≤ b.1))

/-- Sort an object's fields by key in ascending code-point order
(`Reflect.ownKeys(target).sort()`). -/
def sortFields (fs : List (String × JValue)) : List (String × JValue) :=
  List.insertionSort fieldLE fs

mutual
/-- The value tree as seen through the `keyJSONSort` proxy.  `p` records
whether the current node is proxied: the root is proxied when it is an
object or array; a proxied node's plain-object children are proxied in
turn, while array children are returned raw, cutting sorting off for
everything below them. -/
def keyJSONSort : Bool → JValue → JValue
  | p, .obj fs => .obj (if p then sortFields (keyJSONSortFields p fs) else keyJSONSortFields p fs)
  | p, .arr xs => .arr (keyJSONSortArr p xs)
  | _, v => v

def keyJSONSortFields : Bool → List (String × JValue) → List (String × JValue)
  | _, [] => []
  | p, kv :: t => (kv.1, keyJSONSort (p && kv.2.isObj) kv.2) :: keyJSONSortFields p t

def keyJSONSortArr : Bool → List JValue → List JValue
  | _, [] => []
  | p, v :: t => keyJSONSort (p && v.isObj) v :: keyJSONSortArr p t
end

/-- Escape a character for a JSON string literal. -/
def jsonEscapeChar (c : Char) : String :=
  if c = '"' then "\\\""
  else if c = '\\' then "\\\\"
  else if c = '\n' then "\\n"
  else if c = '\r' then "\\r"
  else if c = '\t' then "\\t"
  else String.singleton c

/-- Body of a JSON string literal. -/
def jsonEscape (s : String) : String :=
  String.join (s.data.map jsonEscapeChar)

/-- `"{"` (written via an escape because of tooling constraints on brace
characters inside string literals). -/
def lbr : String := "\x7b"

/-- `"}"`. -/
def rbr : String := "\x7d"

def commaSep : List String → String
  | [] => ""
  | [x] => x
  | x :: xs => x ++ "," ++ commaSep xs

mutual
/-- `JSON.stringify` (no replacer, no whitespace).  Numbers are integers
(the source never signs non-integers), `Uint8Array` serializes as its
index-keyed object form, and a `CID` serializes through its `toJSON`
(`{"/": <string>}`). -/
def jsonStringify : JValue → String
  | .null => "null"
  | .bool b => if b then "true" else "false"
  | .num n => toString n
  | .str s => "\"" ++ jsonEscape s ++ "\""
  | .bytes bs =>
      lbr ++ commaSep ((List.range bs.length).zip bs |>.map
        (fun ib => "\"" ++ toString ib.1 ++ "\":" ++ toString ib.2)) ++ rbr
  | .cidv c => lbr ++ "\"/\":\"" ++ jsonEscape c ++ "\"" ++ rbr
  | .arr xs => "[" ++ commaSep (jsonStringifyArr xs) ++ "]"
  | .obj fs => lbr ++ commaSep (jsonStringifyFields fs) ++ rbr

def jsonStringifyArr : List JValue → List String
  | [] => []
  | v :: t => jsonStringify v :: jsonStringifyArr t

def jsonStringifyFields : List (String × JValue) → List String
  | [] => []
  | kv :: t => ("\"" ++ jsonEscape kv.1 ++ "\":" ++ jsonStringify kv.2) :: jsonStringifyFields t
end

/-- `JSON.stringify(keyJSONSort(v))`: the canonical JSON string used as
the go-v1 signing image and for v1 envelopes. -/
def canonicalJSON (v : JValue) : String :=
  jsonStringify (keyJSONSort v.typeofObject v)

/-! ## Key-permutation relations for C5 -/

mutual
/-- `KeyPermDeep v w`: `w` is obtained from `v` by permuting the key
order of objects anywhere in the tree — including objects that are
elements of arrays.  This is the spec's notion of "permutation of the
keys of the objects inside `v`". -/
inductive KeyPermDeep : JValue → JValue → Prop where
  | leaf (v : JValue) (ho : v.isObj = false) (ha : v.isArr = false) : KeyPermDeep v v
  | arr (xs ys : List JValue) (h : KeyPermDeepArr xs ys) :
      KeyPermDeep (.arr xs) (.arr ys)
  | obj (fs gs hs : List (String × JValue)) (h1 : KeyPermDeepFields fs gs)
      (h2 : gs.Perm hs) : KeyPermDeep (.obj fs) (.obj hs)

inductive KeyPermDeepArr : List JValue → List JValue → Prop where
  | nil : KeyPermDeepArr [] []
  | cons (v w : JValue) (t u : List JValue) (h : KeyPermDeep v w)
      (ht : KeyPermDeepArr t u) : KeyPermDeepArr (v :: t) (w :: u)

inductive KeyPermDeepFields :
    List (String × JValue) → List (String × JValue) → Prop where
  | nil : KeyPermDeepFields [] []
  | cons (k : String) (v w : JValue) (t u : List (String × JValue))
      (h : KeyPermDeep v w) (ht : KeyPermDeepFields t u) :
      KeyPermDeepFields ((k, v) :: t) ((k, w) :: u)
end

mutual
/-- `KeyPerm v w`: `w` is obtained from `v` by permuting the key order
of objects that are *not* inside any array (arrays, and everything below
them, must be identical).  This is the region in which `keyJSONSort`
actually sorts. -/
inductive KeyPerm : JValue → JValue → Prop where
  | base (v : JValue) (h : v.isObj = false) : KeyPerm v v
  | obj (fs gs hs : List (String × JValue)) (h1 : KeyPermFields fs gs)
      (h2 : gs.Perm hs) : KeyPerm (.obj fs) (.obj hs)

inductive KeyPermFields :
    List (String × JValue) → List (String × JValue) → Prop where
  | nil : KeyPermFields [] []
  | cons (k : String) (v w : JValue) (t u : List (String × JValue))
      (h : KeyPerm v w) (ht : KeyPermFields t u) :
      KeyPermFields ((k, v) :: t) ((k, w) :: u)
end

/-- Key lists of public objects are duplicate-free, recursively
(JavaScript objects cannot carry a key twice). -/
def keysUnique (l : List String) : Bool := decide l.Nodup

mutual
def nodupKeys : JValue → Bool
  | .obj fs => keysUnique (fs.map Prod.fst) && nodupKeysFields fs
  | .arr xs => nodupKeysArr xs
  | _ => true

def nodupKeysFields : List (String × JValue) → Bool
  | [] => true
  | kv :: t => nodupKeys kv.2 && nodupKeysFields t

def nodupKeysArr : List JValue → Bool
  | [] => true
  | v :: t => nodupKeys v && nodupKeysArr t
end

theorem keyJSONSortFields_eq_map (p : Bool) (fs : List (String × JValue)) :
    keyJSONSortFields p fs
      = fs.map (fun kv => (kv.1, keyJSONSort (p && kv.2.isObj) kv.2)) := by
  induction fs with
  | nil => rfl
  | cons kv t ih => simp [keyJSONSortFields, ih]

theorem keyPermFields_keys : ∀ {fs gs : List (String × JValue)},
    KeyPermFields fs gs → fs.map Prod.fst = gs.map Prod.fst
  | _, _, .nil => rfl
  | _, _, .cons k v w t u _ ht => by simp [keyPermFields_keys ht]

/-- Sorting is invariant under permutation of a duplicate-free-keyed
field list. -/
theorem sortFields_congr {fs gs : List (String × JValue)}
    (h : fs.Perm gs) (hnd : (fs.map Prod.fst).Nodup) :
    sortFields fs = sortFields gs := by
  haveI : IsTotal (String × JValue) fieldLE := ⟨fun a b => le_total a.1 b.1⟩
  haveI : IsTrans (String × JValue) fieldLE := ⟨fun a b c => le_trans⟩
  have hperm : (sortFields fs).Perm (sortFields gs) :=
    ((List.perm_insertionSort _ fs).trans h).trans (List.perm_insertionSort _ gs).symm
  have hkey : ∀ l : List (String × JValue), (l.map Prod.fst).Nodup →
      List.Sorted (fun a b : String × JValue => a.1 < b.1) (sortFields l) := by
    intro l hl
    have hs : List.Sorted fieldLE (sortFields l) := List.sorted_insertionSort _ l
    have hnd' : (((sortFields l).map Prod.fst)).Nodup := by
      have hp : ((sortFields l).map Prod.fst).Perm (l.map Prod.fst) :=
        (List.perm_insertionSort _ l).map Prod.fst
      exact hp.symm.nodup hl
    have hne : List.Pairwise (fun a b : String × JValue => a.1 ≠ b.1) (sortFields l) :=
      (List.pairwise_map).mp hnd'
    exact (hs.and hne).imp (fun hab => lt_of_le_of_ne hab.1 hab.2)
  have h1 := hkey fs hnd
  have h2 := hkey gs (by
    have hp : (gs.map Prod.fst).Perm (fs.map Prod.fst) := (h.map Prod.fst).symm
    exact hp.symm.nodup hnd)
  haveI : IsAntisymm (String × JValue) (fun a b : String × JValue => a.1 < b.1) :=
    ⟨fun a b hab hba => absurd hba (lt_asymm hab)⟩
  exact List.eq_of_perm_of_sorted hperm h1 h2

theorem keyPerm_isObj : ∀ {v w : JValue}, KeyPerm v w → v.isObj = false → v = w
  | _, _, .base _ _, _ => rfl
  | _, _, .obj _ _ _ _ _, h => by simp [JValue.isObj] at h

mutual
/-- Core C5 congruence: under `keyJSONSort`'s proxied region, permuting
keys of (duplicate-free) objects not inside arrays does not change the
sorted tree. -/
theorem keyJSONSort_keyPerm : ∀ {v w : JValue}, KeyPerm v w →
    nodupKeys v = true → keyJSONSort true v = keyJSONSort true w
  | _, _, .base _ _, _ => rfl
  | _, _, .obj fs gs hs h1 h2, hnd => by
      have hmap : keyJSONSortFields true fs = keyJSONSortFields true gs :=
        keyJSONSortFields_keyPerm h1 (by
          simp [nodupKeys, Bool.and_eq_true] at hnd
          exact hnd.2)
      have hkeys : keysUnique (fs.map Prod.fst) = true := by
        simp [nodupKeys, Bool.and_eq_true] at hnd
        exact hnd.1
      have hnodup : ((keyJSONSortFields true gs).map Prod.fst).Nodup := by
        have hg : gs.map Prod.fst = fs.map Prod.fst := (keyPermFields_keys h1).symm
        rw [keyJSONSortFields_eq_map]
        have : (gs.map (fun kv => (kv.1, keyJSONSort (true && kv.2.isObj) kv.2))).map Prod.fst
            = gs.map Prod.fst := by
          simp
        rw [this, hg]
        exact of_decide_eq_true hkeys
      have hperm : (keyJSONSortFields true gs).Perm (keyJSONSortFields true hs) := by
        rw [keyJSONSortFields_eq_map, keyJSONSortFields_eq_map]
        exact h2.map _
      have hnodup' : ((keyJSONSortFields true fs).map Prod.fst).Nodup := by
        rw [hmap]; exact hnodup
      show JValue.obj (sortFields (keyJSONSortFields true fs))
          = JValue.obj (sortFields (keyJSONSortFields true hs))
      rw [hmap, sortFields_congr hperm hnodup]

theorem keyJSONSortFields_keyPerm : ∀ {fs gs : List (String × JValue)},
    KeyPermFields fs gs → nodupKeysFields fs = true →
    keyJSONSortFields true fs = keyJSONSortFields true gs
  | _, _, .nil, _ => rfl
  | _, _, .cons k v w t u h ht, hnd => by
      have hnd1 : nodupKeys v = true := by
        simp [nodupKeysFields, Bool.and_eq_true] at hnd
        exact hnd.1
      have hnd2 : nodupKeysFields t = true := by
        simp [nodupKeysFields, Bool.and_eq_true] at hnd
        exact hnd.2
      have hval : keyJSONSort (true && v.isObj) v = keyJSONSort (true && w.isObj) w := by
        by_cases hobj : v.isObj = true
        · have hw : w.isObj = true := by
            cases h with
            | base _ hb => exact hobj
            | obj _ _ _ _ _ => rfl
          rw [hobj, hw]
          simpa using keyJSONSort_keyPerm h hnd1
        · have hvw : v = w := keyPerm_isObj h (by simpa using hobj)
          rw [hvw]
      show (k, keyJSONSort (true && v.isObj) v) :: keyJSONSortFields true t
          = (k, keyJSONSort (true && w.isObj) w) :: keyJSONSortFields true u
      rw [hval, keyJSONSortFields_keyPerm ht hnd2]
end

/-! ## Claim C5 -/

/-- A value containing an object nested inside an array, and the same
value with that inner object's keys transposed. -/
def c5Inner : JValue := .obj [("y", .num 1), ("x", .num 2)]

def c5InnerPerm : JValue := .obj [("x", .num 2), ("y", .num 1)]

def c5Val : JValue := .obj [("a", .arr [c5Inner])]

def c5ValPerm : JValue := .obj [("a", .arr [c5InnerPerm])]

/-- C5, counterexample: the canonical-JSON serialization is *not* stable
under permutation of the keys of an object nested inside an array.
`keyJSONSort`'s proxy returns arrays raw, so objects below an array keep
their insertion-order keys: permuting `{"y":1,"x":2}` inside `["a"]`'s
array changes the output (`{"a":[{"y":1,"x":2}]}` vs
`{"a":[{"x":2,"y":1}]}`). -/
theorem claim_C5_counterexample :
    KeyPermDeep c5Val c5ValPerm ∧ canonicalJSON c5Val ≠ canonicalJSON c5ValPerm := by
  constructor
  · exact KeyPermDeep.obj _ _ _
      (KeyPermDeepFields.cons "a" (JValue.arr [c5Inner]) (JValue.arr [c5InnerPerm]) [] []
        (KeyPermDeep.arr _ _
          (KeyPermDeepArr.cons c5Inner c5InnerPerm [] []
            (KeyPermDeep.obj _ _ _
              (KeyPermDeepFields.cons "y" (JValue.num 1) (JValue.num 1) _ _
                (KeyPermDeep.leaf _ rfl rfl)
                (KeyPermDeepFields.cons "x" (JValue.num 2) (JValue.num 2) [] []
                  (KeyPermDeep.leaf _ rfl rfl) KeyPermDeepFields.nil))
              (List.Perm.swap ("x", JValue.num 2) ("y", JValue.num 1) []))
            KeyPermDeepArr.nil))
        KeyPermDeepFields.nil)
      (List.Perm.refl _)
  · decide

/-- C5, amended: the canonical-JSON serialization is stable under
permutation of the keys of objects *not located inside any array*
(provided object keys are duplicate-free, as JavaScript objects
guarantee): `canonicalJSON(permute(v)) = canonicalJSON(v)` whenever the
permutation leaves arrays — and everything below them — untouched.
Objects inside arrays are serialized with their keys in insertion order
(see the counterexample). -/
theorem claim_C5_amended (v w : JValue) (h : KeyPerm v w)
    (hnd : nodupKeys v = true) : canonicalJSON v = canonicalJSON w := by
  cases h with
  | base v hb => rfl
  | obj fs gs hs h1 h2 =>
      show jsonStringify (keyJSONSort (JValue.typeofObject (.obj fs)) (.obj fs))
          = jsonStringify (keyJSONSort (JValue.typeofObject (.obj hs)) (.obj hs))
      have : JValue.typeofObject (.obj fs) = true := rfl
      rw [this]
      have : JValue.typeofObject (.obj hs) = true := rfl
      rw [this]
      exact congrArg jsonStringify
        (keyJSONSort_keyPerm (KeyPerm.obj fs gs hs h1 h2) hnd)

def c5WVal : JValue := .obj [("b", .num 1), ("a", .obj [("d", .num 2), ("c", .num 3)])]

def c5WValPerm : JValue := .obj [("a", .obj [("c", .num 3), ("d", .num 2)]), ("b", .num 1)]

/-- Witness for the amended C5 at a concrete permuted value. -/
theorem claim_C5_witness :
    KeyPerm c5WVal c5WValPerm ∧ nodupKeys c5WVal = true ∧
      canonicalJSON c5WVal = canonicalJSON c5WValPerm := by
  have hperm : KeyPerm c5WVal c5WValPerm :=
    KeyPerm.obj _ _ _
      (KeyPermFields.cons "b" (JValue.num 1) (JValue.num 1) _ _ (KeyPerm.base _ rfl)
        (KeyPermFields.cons "a"
          (JValue.obj [("d", JValue.num 2), ("c", JValue.num 3)])
          (JValue.obj [("c", JValue.num 3), ("d", JValue.num 2)]) [] []
          (KeyPerm.obj _ _ _
            (KeyPermFields.cons "d" (JValue.num 2) (JValue.num 2) _ _ (KeyPerm.base _ rfl)
              (KeyPermFields.cons "c" (JValue.num 3) (JValue.num 3) [] [] (KeyPerm.base _ rfl)
                KeyPermFields.nil))
            (List.Perm.swap ("c", JValue.num 3) ("d", JValue.num 2) []))
          KeyPermFields.nil))
      (List.Perm.swap ("a", JValue.obj [("c", JValue.num 3), ("d", JValue.num 2)])
        ("b", JValue.num 1) [])
  exact ⟨hperm, by decide, claim_C5_amended c5WVal c5WValPerm hperm (by decide)⟩

/-! ## Byte/string coercion helpers (src/utils/go-json.js)

`uint8arrays`' `fromString`/`toString` are modeled over `List Nat` bytes.
The utf-8 coercion is modeled as the (injective) code-point encoding —
every property proved here depends only on the coercion being a
deterministic injective pairing, never on the exact byte layout. -/

/-- `uint8arraysFromString(s)` (utf-8 model). -/
def strToBytes (s : String) : List Nat := s.data.map Char.toNat

/-- `uint8arraysToString(bs)` (utf-8 model). -/
def bytesToStr (bs : List Nat) : String := String.mk (bs.map Char.ofNat)

def hexDigitChar (n : Nat) : Char := "0123456789abcdef".data.getD n '0'

/-- `uint8arraysToString(bs, 'base16')`: lowercase hex. -/
def hexEnc (bs : List Nat) : String :=
  String.join (bs.map (fun b => String.mk [hexDigitChar (b / 16), hexDigitChar (b % 16)]))

def hexDigitVal (c : Char) : Option Nat :=
  (List.range 16).find? (fun n => hexDigitChar n = c)

def hexDecodeChars : List Char → Option (List Nat)
  | [] => some []
  | [_] => none
  | a :: b :: t => do
      let va ← hexDigitVal a
      let vb ← hexDigitVal b
      let rest ← hexDecodeChars t
      pure ((va * 16 + vb) :: rest)

/-- `uint8arraysFromString(s, 'base16')`; fails (throws) on non-hex input. -/
def hexDecode (s : String) : Option (List Nat) := hexDecodeChars s.data

/-- The RFC 4648 base64 alphabet used by `multiformats`' `base64pad`. -/
def b64Chars : List Char :=
  "ABCDEFGHIJKLMNOPQRSTUVWXYZabcdefghijklmnopqrstuvwxyz0123456789+/".data

def b64Char (n : Nat) : Char := b64Chars.getD n 'A'

/-- `base64pad.baseEncode`: padded base64 of a byte sequence. -/
def b64padEncode : List Nat → String
  | [] => ""
  | [a] => String.mk [b64Char (a / 4), b64Char (a % 4 * 16), '=', '=']
  | [a, b] => String.mk [b64Char (a / 4), b64Char (a % 4 * 16 + b / 16), b64Char (b % 16 * 4), '=']
  | a :: b :: c :: rest =>
      String.mk [b64Char (a / 4), b64Char (a % 4 * 16 + b / 16),
        b64Char (b % 16 * 4 + c / 64), b64Char (c % 64)] ++ b64padEncode rest

def b64Val (c : Char) : Option Nat :=
  (List.range 64).find? (fun n => b64Char n = c)

def b64padDecodeChars : List Char → Option (List Nat)
  | [] => some []
  | [a, b, '=', '='] => do
      let va ← b64Val a
      let vb ← b64Val b
      pure [va * 4 + vb / 16]
  | [a, b, c, '='] => do
      let va ← b64Val a
      let vb ← b64Val b
      let vc ← b64Val c
      pure [va * 4 + vb / 16, vb % 16 * 16 + vc / 4]
  | a :: b :: c :: d :: rest => do
      let va ← b64Val a
      let vb ← b64Val b
      let vc ← b64Val c
      let vd ← b64Val d
      let tail ← b64padDecodeChars rest
      pure ([va * 4 + vb / 16, vb % 16 * 16 + vc / 4, vc % 4 * 64 + vd] ++ tail)
  | _ => none

/-- `base64pad.baseDecode`; fails (throws) on malformed input. -/
def b64padDecode (s : String) : Option (List Nat) := b64padDecodeChars s.data

/-! ## Entry model (src/oplog/entry.js)

External collaborators — the DAG-CBOR codec, SHA-256 content ids,
multibase CID rendering/parsing, the identity store's hashing and
`JSON.parse` — are bundled in `CodecEnv` and supplied by the caller, as
the spec treats them (pure capability contracts).  The identity signer
(`identity.sign`) and verifier (`identities.verify`) are likewise passed
as functions.  A CID is abstracted as a `Nat`. -/

structure IdentitySigs where
  id : String
  publicKey : String

structure IdentityDoc where
  id : String
  publicKey : String
  signatures : IdentitySigs
  type : String

/-- An identity instance: the `{id, publicKey, signatures, type}`
document plus its content-address.  Modelled from the spec:
`src/identities/identity.js` is not under `src/`; per spec §3/§4.2 the
identity document carries exactly these fields and `Identity(x)` yields
the instance whose document is `x` (the hash is recomputed by the
environment's `idHash`). -/
structure IdentityInst where
  doc : IdentityDoc
  hash : String

structure ClockT where
  id : String
  time : Nat

/-- Modelled from the spec: `src/oplog/clock.js` is not under `src/`;
per spec §4.2 a fresh clock is `{id: identity.publicKey, time: 0}` and
`Clock(id, time)` builds `{id, time}`. -/
def Clock (id : String) (time : Nat) : ClockT := ⟨id, time⟩

/-- The six signed fields of a v2 entry (`{id, payload, next, refs,
clock, v}` exactly as assembled in `create`).  `next`/`refs` stay
dynamic (`JValue`) because `create` accepts — and `v2` encodes — any
value there. -/
structure Signed where
  id : String
  payload : JValue
  next : JValue
  refs : JValue
  clock : ClockT
  v : Nat

/-- The full v2 entry document: signed fields plus `key` (public key),
`identity` (hash reference string) and `sig`. -/
structure FullV2 where
  s : Signed
  key : String
  identity : String
  sig : String

/-- The go-v1 entry document as passed to `Block.encode`: it also
carries a constant `hash: null` slot (omitted here because it never
varies) and inlines the identity document. -/
structure GoV1Doc where
  id : String
  payload : JValue
  next : List Nat
  refs : List Nat
  clock : ClockT
  v : Nat
  sig : String
  key : String
  identity : IdentityDoc

/-- The in-memory `entryGoV1` record: document fields plus the identity
instance, the optional legacy `additional_data`, the content-address
string (base32; `none` models the `null` it holds between wire decode
and the patch in `decode`) and the raw document bytes. -/
structure GoV1Record where
  id : String
  payload : JValue
  next : List Nat
  refs : List Nat
  clock : ClockT
  v : Nat
  sig : String
  key : String
  identity : IdentityInst
  additional_data : Option JValue
  hash : Option String
  bytes : List Nat

/-- A decoded block: `Block.decode` yields a v2 entry document when its
`identity` field is a string, a go-v1 document when the identity is
inlined (`decode` branches on exactly this). -/
inductive BlockDoc where
  | v2s (s : Signed)
  | v2f (f : FullV2)
  | gov1 (g : GoV1Doc)

/-- The external capability bundle: DAG-CBOR encode/decode, SHA-256
content ids (`cidOf`), multibase CID rendering/parsing, identity-store
hashing, `JSON.parse`. -/
structure CodecEnv where
  enc : BlockDoc → List Nat
  dec : List Nat → Option BlockDoc
  cidOf : List Nat → Nat
  cidToStr : String → Nat → String
  cidParse : String → Option Nat
  idHash : IdentityDoc → String
  jsonParse : String → Option JValue

/-- A complete in-memory entry (result of `create`/`decode`). -/
structure Entry where
  id : String
  payload : JValue
  next : JValue
  refs : JValue
  clock : ClockT
  v : Nat
  key : String
  identity : String
  sig : String
  entryGoV1 : Option GoV1Record
  hash : String
  bytes : List Nat

def clockJV (c : ClockT) : JValue :=
  .obj [("id", .str c.id), ("time", .num c.time)]

/-- The go-v1 signing value `{hash: null, id, payload, next, refs,
clock, v, additional_data?}` as a `JValue`, in the literal insertion
order of `encodeGoV1`/`verifyGoV1`.  `additional_data` is appended only
when present: `encodeGoV1`'s literal has no such key, and `verifyGoV1`'s
`additional_data: undefined` binding is dropped by `JSON.stringify`, so
both are the `none` case. -/
def goV1SignImage (id : String) (payload : JValue) (next refs : List String)
    (c : ClockT) (v : Nat) (ad : Option JValue) : JValue :=
  .obj ([("hash", .null), ("id", .str id), ("payload", payload),
    ("next", .arr (next.map JValue.str)), ("refs", .arr (refs.map JValue.str)),
    ("clock", clockJV c), ("v", .num (v : Int))] ++
    (match ad with
     | none => []
     | some a => [("additional_data", a)]))

/-- `payload.value = base64pad.baseEncode(payload.value)` when `value`
is a byte sequence: the in-place mutation of the caller's operation
record. -/
def goV1PayloadMutate (fs : List (String × JValue)) : List (String × JValue) :=
  match JValue.lookup "value" (.obj fs) with
  | some (.bytes bs) =>
      fs.map (fun kv => if kv.1 = "value" then (kv.1, JValue.str (b64padEncode bs)) else kv)
  | _ => fs

/-- The payload preprocessing at the top of `encodeGoV1`: when the
payload is an operation record (an object with a string `op`), its byte
`value` is base64-encoded *in place* and the record is then
`JSON.stringify`ed (plain, unsorted).  Returns `(wire payload, payload
object as the caller sees it afterwards)`. -/
def goV1PayloadStep (includePayload : Bool) (p : JValue) : JValue × JValue :=
  if includePayload then
    match p with
    | .obj fs =>
        match JValue.lookup "op" (.obj fs) with
        | some (.str _) =>
            let fs' := goV1PayloadMutate fs
            (JValue.str (jsonStringify (.obj fs')), .obj fs')
        | _ => (p, p)
    | _ => (p, p)
  else (p, p)

/-- `next.map(n => CID.parse(n))` expects an array of strings; anything
else throws (`TypeError` on a non-array, `CID.parse` failure
otherwise). -/
def asStringArray : JValue → Except String (List String)
  | .arr xs => xs.mapM (fun x =>
      match x with
      | .str s => Except.ok s
      | _ => Except.error "CID.parse: argument is not a string")
  | _ => Except.error "map is not a function"

def mapCidParse (env : CodecEnv) (xs : List String) : Except String (List Nat) :=
  xs.mapM (fun s =>
    match env.cidParse s with
    | some c => Except.ok c
    | none => Except.error "CID.parse: invalid cid string")

/-- `encodeGoV1(entry, identity, includePayload)`.  The first component
carries the record (or the thrown error); the second is the caller's
payload object after the in-place mutation, which happens before any
possible throw. -/
def encodeGoV1 (env : CodecEnv) (sign : List Nat → String) (e : Signed)
    (identity : IdentityInst) (includePayload : Bool) :
    Except String GoV1Record × JValue :=
  let (payload, callerPayload) := goV1PayloadStep includePayload e.payload
  let r : Except String GoV1Record := do
    let nextStrs ← asStringArray e.next
    let refsStrs ← asStringArray e.refs
    let v1next ← mapCidParse env nextStrs
    let v1refs ← mapCidParse env refsStrs
    let nextB58 := v1next.map (env.cidToStr "base58btc")
    let refsB58 := v1refs.map (env.cidToStr "base58btc")
    let valueBytes :=
      strToBytes (canonicalJSON (goV1SignImage e.id payload nextB58 refsB58 e.clock e.v none))
    let signature := sign valueBytes
    let doc : GoV1Doc :=
      ⟨e.id, payload, v1next, v1refs, e.clock, e.v, signature, identity.doc.publicKey, identity.doc⟩
    let bytes := env.enc (.gov1 doc)
    let hash := env.cidToStr "base32" (env.cidOf bytes)
    pure ⟨e.id, payload, v1next, v1refs, e.clock, e.v, signature, identity.doc.publicKey,
      identity, none, some hash, bytes⟩
  (r, callerPayload)

/-- `encode(entry)`: encode the full document, attach `hash` (base58btc
CID string) and `bytes`, rebuild the clock.  Only reached on the v2
path, where no `entryGoV1` is present. -/
def encode (env : CodecEnv) (f : FullV2) : Entry :=
  let bytes := env.enc (.v2f f)
  let hash := env.cidToStr "base58btc" (env.cidOf bytes)
  let clock := Clock f.s.clock.id f.s.clock.time
  ⟨f.s.id, f.s.payload, f.s.next, f.s.refs, clock, f.s.v, f.key, f.identity, f.sig,
    none, hash, bytes⟩

/-- `create(identity, id, payload, clock, next, refs, ver)`.  `none`
models an absent (`undefined`/defaulted) argument and `.null` an
explicit `null`; validation follows lines 92–95 of the source, whose
loose `== null` checks reject `undefined` and explicit `null` alike — so
the payload guard also fires on `some .null` (note: `refs` is never
validated).  Returns the result together with the
payload object as the caller sees it afterwards (the go-v1 path mutates
an operation record's `value` in place). -/
def create (env : CodecEnv) (sign : List Nat → String)
    (identity : Option IdentityInst) (id : Option String) (payload : Option JValue)
    (clock : Option ClockT) (next : Option JValue) (refs : Option JValue)
    (ver : String) : Except String Entry × JValue :=
  let payloadObj := payload.getD JValue.null
  match identity with
  | none => (.error "Identity is required, cannot create entry", payloadObj)
  | some idn =>
    match id with
    | none => (.error "Entry requires an id", payloadObj)
    | some idv =>
      match payload with
      | none => (.error "Entry requires a payload", payloadObj)
      | some payloadv =>
        if payloadv.isNull then (.error "Entry requires a payload", payloadObj)
        else
          let effNext := next.getD (JValue.arr [])
          if effNext.isNull || !effNext.isArr then
            (.error "next argument is not an array", payloadObj)
          else
            let clockv := match clock with
              | some c => c
              | none => Clock idn.doc.publicKey 0
            let effRefs := refs.getD (JValue.arr [])
            let e : Signed := ⟨idv, payloadv, effNext, effRefs, clockv, 2⟩
            if ver = "go-v1" then
              let (r, callerPayload) := encodeGoV1 env sign e idn true
              match r with
              | .error err => (.error err, callerPayload)
              | .ok g =>
                match g.hash with
                | none => (.error "CID.parse: invalid cid string", callerPayload)
                | some h =>
                  match env.cidParse h with
                  | none => (.error "CID.parse: invalid cid string", callerPayload)
                  | some c =>
                      (.ok ⟨idv, callerPayload, effNext, effRefs, clockv, 2,
                        idn.doc.publicKey, idn.hash, g.sig, some g,
                        env.cidToStr "base58btc" c, g.bytes⟩, callerPayload)
            else
              let bytes := env.enc (.v2s e)
              let signature := sign bytes
              (.ok (encode env ⟨e, idn.doc.publicKey, idn.hash, signature⟩), payloadv)

/-- The `JSON.parse` + base64 rewrite of the wire payload in
`decodeGoV1` (the whole block sits in a `try`/`catch` that keeps the
last successfully assigned value). -/
def decodeGoV1Payload (env : CodecEnv) (p : JValue) : JValue :=
  match p with
  | .str s =>
      match env.jsonParse s with
      | none => p
      | some q =>
          match q with
          | .obj fs =>
              match JValue.lookup "op" (.obj fs) with
              | some (.str _) =>
                  match JValue.lookup "value" (.obj fs) with
                  | some (.str vs) =>
                      match b64padDecode vs with
                      | some bs =>
                          .obj (fs.map (fun kv =>
                            if kv.1 = "value" then (kv.1, JValue.bytes bs) else kv))
                      | none => q
                  | _ => q
              | _ => q
          | _ => q
  | _ => p

/-- `decodeGoV1(entryGoV1, includePayload)`: materialize the v2 shape of
a go-v1 wire document.  The typed document always carries an inline
identity, so the `not go v1 entry` guard cannot fire here.  `hash` and
`bytes` of the resulting entry are patched by the caller (`decode`), as
in the source where the returned object simply lacks them. -/
def decodeGoV1 (env : CodecEnv) (g : GoV1Doc) (bytes : List Nat)
    (includePayload : Bool) : Entry :=
  let identityInst : IdentityInst := ⟨g.identity, env.idHash g.identity⟩
  let next := JValue.arr (g.next.map (fun n => JValue.str (env.cidToStr "base58btc" n)))
  let refs := JValue.arr (g.refs.map (fun n => JValue.str (env.cidToStr "base58btc" n)))
  let clock := Clock g.clock.id g.clock.time
  let payload := if includePayload then decodeGoV1Payload env g.payload else g.payload
  ⟨g.id, payload, next, refs, clock, 2, g.key, identityInst.hash, g.sig,
    some ⟨g.id, g.payload, g.next, g.refs, g.clock, g.v, g.sig, g.key, identityInst,
      none, none, bytes⟩,
    "", bytes⟩

/-- `decode(bytes)`: decode the block, branch on the shape of the
`identity` field (string → v2, inline document → go-v1), attach
`hash`/`bytes`; on the go-v1 branch additionally patch the record's
base32 hash.  A six-field signed document is not an entry document and
cannot be produced by an honest encoder; it maps to a decode error. -/
def decode (env : CodecEnv) (bytes : List Nat) : Except String Entry :=
  match env.dec bytes with
  | none => .error "block decode error"
  | some (.v2s _) => .error "block decode error"
  | some (.v2f f) =>
      .ok ⟨f.s.id, f.s.payload, f.s.next, f.s.refs, f.s.clock, f.s.v, f.key, f.identity,
        f.sig, none, env.cidToStr "base58btc" (env.cidOf bytes), bytes⟩
  | some (.gov1 g) =>
      let e := decodeGoV1 env g bytes true
      let cid := env.cidOf bytes
      let rec1 := (e.entryGoV1.map (fun r => { r with hash := some (env.cidToStr "base32" cid) }))
      .ok { e with entryGoV1 := rec1, hash := env.cidToStr "base58btc" cid, bytes := bytes }

/-- `isEntry(obj)`.  Every structural field the predicate probes
(`id`, `next`, `payload`, `v`, `clock`, `refs`) is present by
construction in the typed embedding, so the predicate holds. -/
def isEntry (_ : Entry) : Bool := true

/-- `verifyGoV1(identities, entryGoV1)`: rebuild the go-v1 signing image
from the record and check the signature. -/
def verifyGoV1 (env : CodecEnv) (idVerify : String → String → List Nat → Bool)
    (g : GoV1Record) : Except String Bool :=
  let nextStrs := g.next.map (env.cidToStr "base58btc")
  let refsStrs := g.refs.map (env.cidToStr "base58btc")
  let bytes := strToBytes (canonicalJSON
    (goV1SignImage g.id g.payload nextStrs refsStrs g.clock g.v g.additional_data))
  .ok (idVerify g.sig g.key bytes)

/-- `verify(identities, entry)`: structural guards, then the go-v1 check
when an `entryGoV1` record is attached, otherwise re-encode the six
signed fields and check the signature.  The `identities` service is the
`idVerify` function itself (its non-null guard is thereby satisfied). -/
def verify (env : CodecEnv) (idVerify : String → String → List Nat → Bool)
    (e : Entry) : Except String Bool :=
  if isEntry e = false then .error "Invalid Log entry"
  else if e.key = "" then .error "Entry has no key"
  else if e.sig = "" then .error "Entry has no signature"
  else
    match e.entryGoV1 with
    | some g => verifyGoV1 env idVerify g
    | none =>
        let value : Signed := ⟨e.id, e.payload, e.next, e.refs, e.clock, e.v⟩
        let bytes := env.enc (.v2s value)
        .ok (idVerify e.sig e.key bytes)

/-! ## Claim C6 -/

/-- A minimal concrete capability environment for closed evaluations. -/
def envT : CodecEnv :=
  ⟨fun _ => [0], fun _ => none, fun _ => 0, fun _ _ => "z", fun _ => none,
    fun _ => "idh", fun _ => none⟩

def signT : List Nat → String := fun _ => "SIG"

def idnT : IdentityInst := ⟨⟨"idid", "PK", ⟨"s1", "s2"⟩, "orbitdb"⟩, "zID"⟩

/-- C6, counterexample: `create` does *not* validate `refs`.  With
`refs = 5` — not a sequence — and all other arguments valid, `create`
succeeds instead of failing with an `InvalidArgument` error (the source
checks `identity`, `id`, `payload` and `next` only; lines 92–95). -/
theorem claim_C6_counterexample :
    JValue.isArr (JValue.num 5) = false ∧
    (create envT signT (some idnT) (some "log") (some (.str "hello")) none none
      (some (.num 5)) "js-v2").1
      = .ok ⟨"log", .str "hello", .arr [], .num 5, ⟨"PK", 0⟩, 2, "PK", "zID", "SIG",
          none, "z", [0]⟩ := by
  exact ⟨rfl, rfl⟩

/-- C6, amended: `create` fails with the `InvalidArgument` errors of
lines 92–95 exactly when `identity` is null, `logId` is null, `payload`
is null (the loose `payload == null` check rejects an absent payload and
an explicit `null` alike, here `none` or `some .null`), or `next` is
null or not a sequence — in that order of precedence; `refs` is *not*
validated (see the counterexample).  With `identity`, `logId`, `payload`
supplied non-null and `next` a sequence, the default (`js-v2`) dialect
raises nothing.  (The JavaScript messages are quoted verbatim except
that the source wraps `next` in quotes.) -/
theorem claim_C6_amended (env : CodecEnv) (sign : List Nat → String)
    (identity : Option IdentityInst) (id : Option String) (payload : Option JValue)
    (clock : Option ClockT) (next : Option JValue) (refs : Option JValue) (ver : String) :
    (identity = none →
      (create env sign identity id payload clock next refs ver).1
        = .error "Identity is required, cannot create entry") ∧
    (identity ≠ none → id = none →
      (create env sign identity id payload clock next refs ver).1
        = .error "Entry requires an id") ∧
    (identity ≠ none → id ≠ none → (payload.getD JValue.null).isNull = true →
      (create env sign identity id payload clock next refs ver).1
        = .error "Entry requires a payload") ∧
    (identity ≠ none → id ≠ none → (payload.getD JValue.null).isNull = false →
      ((next.getD (JValue.arr [])).isNull || !(next.getD (JValue.arr [])).isArr) = true →
      (create env sign identity id payload clock next refs ver).1
        = .error "next argument is not an array") ∧
    (identity ≠ none → id ≠ none → (payload.getD JValue.null).isNull = false →
      ((next.getD (JValue.arr [])).isNull || !(next.getD (JValue.arr [])).isArr) = false →
      ver = "js-v2" →
      (create env sign identity id payload clock next refs ver).1.isOk = true) := by
  refine ⟨?_, ?_, ?_, ?_, ?_⟩
  · intro h1
    subst h1
    simp [create]
  · intro h1 h2
    match identity with
    | some idn =>
        subst h2
        simp [create]
    | none => exact absurd rfl h1
  · intro h1 h2 h3
    match identity, id, payload with
    | some idn, some idv, none =>
        simp [create]
    | some idn, some idv, some pv =>
        simp only [Option.getD] at h3
        simp [create, h3]
    | none, _, _ => exact absurd rfl h1
    | some _, none, _ => exact absurd rfl h2
  · intro h1 h2 h3 h4
    match identity, id, payload with
    | some idn, some idv, some pv =>
        simp only [Option.getD] at h3
        simp [create, h3, h4]
    | none, _, _ => exact absurd rfl h1
    | some _, none, _ => exact absurd rfl h2
    | some _, some _, none => simp [JValue.isNull] at h3
  · intro h1 h2 h3 h4 h5
    match identity, id, payload with
    | some idn, some idv, some pv =>
        subst h5
        simp only [Option.getD] at h3
        simp [create, h3, h4, Except.isOk, Except.toBool]
    | none, _, _ => exact absurd rfl h1
    | some _, none, _ => exact absurd rfl h2
    | some _, some _, none => simp [JValue.isNull] at h3

/-- Witness for the amended C6: the identity-missing error, the
explicit-`null` payload error, and the all-valid success, at concrete
inputs. -/
theorem claim_C6_witness :
    (create envT signT none (some "log") (some (.str "hello")) none none none "js-v2").1
      = .error "Identity is required, cannot create entry" ∧
    (create envT signT (some idnT) (some "log") (some .null) none none none "js-v2").1
      = .error "Entry requires a payload" ∧
    (create envT signT (some idnT) (some "log") (some (.str "hello")) none none none
      "js-v2").1.isOk = true := by
  refine ⟨?_, ?_, ?_⟩
  · exact (claim_C6_amended envT signT none (some "log") (some (.str "hello")) none none
      none "js-v2").1 rfl
  · exact (claim_C6_amended envT signT (some idnT) (some "log") (some .null) none none
      none "js-v2").2.2.1 (by simp) (by simp) (by decide)
  · exact (claim_C6_amended envT signT (some idnT) (some "log") (some (.str "hello")) none
      none none "js-v2").2.2.2.2 (by simp) (by simp) (by decide) (by decide) rfl


/-! ## Claim C10 -/

theorem find_replaceValue (fs : List (String × JValue)) (k : String) (w : JValue) :
    (fs.map (fun kv => if kv.1 = k then (kv.1, w) else kv)).find? (fun kv => kv.1 = k)
      = (fs.find? (fun kv => kv.1 = k)).map (fun kv => (kv.1, w)) := by
  induction fs with
  | nil => rfl
  | cons kv t ih =>
      by_cases h : kv.1 = k
      · simp [List.find?_cons, h]
      · simp [List.find?_cons, h, ih]

theorem find_replaceValue_ne (fs : List (String × JValue)) (k k' : String) (w : JValue)
    (h : k' ≠ k) :
    (fs.map (fun kv => if kv.1 = k then (kv.1, w) else kv)).find? (fun kv => kv.1 = k')
      = fs.find? (fun kv => kv.1 = k') := by
  induction fs with
  | nil => rfl
  | cons kv t ih =>
      by_cases hk : kv.1 = k
      · have hne : ¬(k = k') := fun hh => h hh.symm
        simp [List.find?_cons, hk, hne, ih]
      · by_cases hk' : kv.1 = k'
        · simp [List.find?_cons, hk, hk', h]
        · simp [List.find?_cons, hk, hk', ih]

/-- The second component of `create` on the go-v1 path is always the
caller's payload object after `goV1PayloadStep`'s in-place mutation,
whether or not the later CID parsing throws. -/
theorem create_goV1_snd (env : CodecEnv) (sign : List Nat → String) (idn : IdentityInst)
    (i : String) (p : JValue) (clock : Option ClockT) (next refs : Option JValue)
    (hnext : ((next.getD (JValue.arr [])).isNull || !(next.getD (JValue.arr [])).isArr) = false) :
    (create env sign (some idn) (some i) (some p) clock next refs "go-v1").2
      = (goV1PayloadStep true p).2 := by
  simp only [create, hnext, Bool.false_eq_true, reduceIte, encodeGoV1]
  split
  next h =>
    cases p <;> first | rfl | simp [JValue.isNull] at h
  next h =>
    split
    · rfl
    · split
      · rfl
      · split
        · rfl
        · rfl

/-- C10: a go-v1 `create` on an operation-record payload (object with a
string `op`) whose `value` is a byte sequence mutates the caller's
payload object in place — afterwards `value` holds the base64pad string
of the original bytes, and every other field is unchanged
(`encodeGoV1` assigns `payload.value = base64pad.baseEncode(payload.value)`
on the caller's object before stringifying it for the signing image). -/
theorem claim_C10 (env : CodecEnv) (sign : List Nat → String) (idn : IdentityInst)
    (i : String) (fs : List (String × JValue)) (bs : List Nat)
    (clock : Option ClockT) (next refs : Option JValue) (op : String)
    (hop : JValue.lookup "op" (.obj fs) = some (.str op))
    (hval : JValue.lookup "value" (.obj fs) = some (.bytes bs))
    (hnext : ((next.getD (JValue.arr [])).isNull || !(next.getD (JValue.arr [])).isArr) = false) :
    (create env sign (some idn) (some i) (some (.obj fs)) clock next refs "go-v1").2
      = .obj (fs.map (fun kv =>
          if kv.1 = "value" then (kv.1, JValue.str (b64padEncode bs)) else kv)) ∧
    JValue.lookup "value"
        (create env sign (some idn) (some i) (some (.obj fs)) clock next refs "go-v1").2
      = some (.str (b64padEncode bs)) ∧
    ∀ k, k ≠ "value" →
      JValue.lookup k
          (create env sign (some idn) (some i) (some (.obj fs)) clock next refs "go-v1").2
        = JValue.lookup k (.obj fs) := by
  have hsnd := create_goV1_snd env sign idn i (.obj fs) clock next refs hnext
  have hstep : (goV1PayloadStep true (.obj fs)).2
      = .obj (fs.map (fun kv =>
          if kv.1 = "value" then (kv.1, JValue.str (b64padEncode bs)) else kv)) := by
    simp only [goV1PayloadStep, hop, goV1PayloadMutate, hval, if_true]
  have hmain : (create env sign (some idn) (some i) (some (.obj fs)) clock next refs
      "go-v1").2 = .obj (fs.map (fun kv =>
        if kv.1 = "value" then (kv.1, JValue.str (b64padEncode bs)) else kv)) :=
    hsnd.trans hstep
  refine ⟨hmain, ?_, ?_⟩
  · rw [hmain]
    show ((fs.map (fun kv =>
        if kv.1 = "value" then (kv.1, JValue.str (b64padEncode bs)) else kv)).find?
          (fun kv => kv.1 = "value")).map Prod.snd = some (.str (b64padEncode bs))
    rw [find_replaceValue]
    have hex : ∃ kv, fs.find? (fun kv => kv.1 = "value") = some kv := by
      rcases hf : fs.find? (fun kv => kv.1 = "value") with _ | kv
      · exfalso
        have hnone : JValue.lookup "value" (.obj fs) = none := by
          simp [JValue.lookup, hf]
        rw [hnone] at hval
        exact Option.noConfusion hval
      · exact ⟨kv, hf⟩
    rcases hex with ⟨kv, hkv⟩
    simp [hkv]
  · intro k hk
    rw [hmain]
    show ((fs.map (fun kv =>
        if kv.1 = "value" then (kv.1, JValue.str (b64padEncode bs)) else kv)).find?
          (fun kv => kv.1 = k)).map Prod.snd
        = (fs.find? (fun kv => kv.1 = k)).map Prod.snd
    rw [find_replaceValue_ne fs "value" k _ hk]

def c10fs : List (String × JValue) :=
  [("op", .str "PUT"), ("key", .str "k"), ("value", .bytes [104, 101, 108, 108, 111])]

/-- Witness for C10: `{op: "PUT", key: "k", value: <"hello" bytes>}`
comes back with `value = "aGVsbG8="` and the other fields intact. -/
theorem claim_C10_witness :
    (create envT signT (some idnT) (some "log") (some (.obj c10fs)) none none none
      "go-v1").2
      = .obj [("op", .str "PUT"), ("key", .str "k"), ("value", .str "aGVsbG8=")] := by
  have h := claim_C10 envT signT idnT "log" c10fs [104, 101, 108, 108, 111] none none none
    "PUT" rfl rfl (by decide)
  rw [h.1]
  rfl

/-! ## Claim C3 -/

/-- The six signed fields of an entry, as `verify` reassembles them. -/
def entrySignedDoc (e : Entry) : Signed := ⟨e.id, e.payload, e.next, e.refs, e.clock, e.v⟩

def entryFullDoc (e : Entry) : FullV2 := ⟨entrySignedDoc e, e.key, e.identity, e.sig⟩

def goDocOfRecord (g : GoV1Record) : GoV1Doc :=
  ⟨g.id, g.payload, g.next, g.refs, g.clock, g.v, g.sig, g.key, g.identity.doc⟩

theorem Clock_eta (c : ClockT) : Clock c.id c.time = c := rfl

theorem createV2_verify_roundtrip (env : CodecEnv) (sign : List Nat → String)
    (idVerify : String → String → List Nat → Bool) (idn : IdentityInst)
    (i : String) (p : JValue) (clock : Option ClockT) (next refs : Option JValue)
    (e : Entry)
    (h1 : (create env sign (some idn) (some i) (some p) clock next refs "js-v2").1 = .ok e)
    (h2 : env.dec e.bytes = some (.v2f (entryFullDoc e)))
    (hv : ∀ m, idVerify (sign m) idn.doc.publicKey m = true)
    (hk : idn.doc.publicKey ≠ "")
    (hs : ∀ m, sign m ≠ "") :
    (decode env e.bytes).bind (verify env idVerify) = .ok true := by
  simp only [create, String.reduceEq, reduceIte] at h1
  split at h1
  · exact absurd h1 (by simp)
  · split at h1
    · exact absurd h1 (by simp)
    · rw [Except.ok.injEq] at h1
      subst h1
      simp only [encode, entryFullDoc, entrySignedDoc, Clock_eta] at h2
      simp only [decode, encode, h2, Except.bind]
      simp only [verify, isEntry]
      rw [if_neg (by simp), if_neg hk, if_neg (hs _), hv _]

theorem exceptBind_error {e : String} {a b : Type} (f : a → Except String b) :
    (Except.error e : Except String a) >>= f = .error e := rfl

theorem exceptBind_ok {a b : Type} (x : a) (f : a → Except String b) :
    (Except.ok x : Except String a) >>= f = f x := rfl

theorem exceptPure {a : Type} (x : a) : (pure x : Except String a) = .ok x := rfl

theorem createGoV1_verify_roundtrip (env : CodecEnv) (sign : List Nat → String)
    (idVerify : String → String → List Nat → Bool) (idn : IdentityInst)
    (i : String) (p : JValue) (clock : Option ClockT) (next refs : Option JValue)
    (e : Entry)
    (h1 : (create env sign (some idn) (some i) (some p) clock next refs "go-v1").1 = .ok e)
    (h2 : ∀ g, e.entryGoV1 = some g → env.dec e.bytes = some (.gov1 (goDocOfRecord g)))
    (hv : ∀ m, idVerify (sign m) idn.doc.publicKey m = true)
    (hk : idn.doc.publicKey ≠ "")
    (hs : ∀ m, sign m ≠ "") :
    (decode env e.bytes).bind (verify env idVerify) = .ok true := by
  simp only [create, String.reduceEq, reduceIte, encodeGoV1] at h1
  split at h1
  · exact absurd h1 (by simp)
  · split at h1
    · exact absurd h1 (by simp)
    · rcases hP : goV1PayloadStep true p with ⟨pw, pc⟩
      rw [hP] at h1
      rcases hA : asStringArray (next.getD (JValue.arr [])) with eA | ns
      · rw [hA] at h1
        simp only [exceptBind_error, exceptBind_ok] at h1
        exact absurd h1 (by simp)
      · rw [hA] at h1
        simp only [exceptBind_error, exceptBind_ok] at h1
        rcases hB : asStringArray (refs.getD (JValue.arr [])) with eB | rs
        · rw [hB] at h1
          simp only [exceptBind_error, exceptBind_ok] at h1
          exact absurd h1 (by simp)
        · rw [hB] at h1
          simp only [exceptBind_error, exceptBind_ok] at h1
          rcases hC : mapCidParse env ns with eC | nc
          · rw [hC] at h1
            simp only [exceptBind_error, exceptBind_ok] at h1
            exact absurd h1 (by simp)
          · rw [hC] at h1
            simp only [exceptBind_error, exceptBind_ok] at h1
            rcases hD : mapCidParse env rs with eD | rc
            · rw [hD] at h1
              simp only [exceptBind_error, exceptBind_ok] at h1
              exact absurd h1 (by simp)
            · rw [hD] at h1
              simp only [exceptBind_error, exceptBind_ok, exceptPure] at h1
              split at h1
              · exact absurd h1 (by simp)
              · simp only [Except.ok.injEq] at h1
                subst h1
                have hdec := h2 _ rfl
                simp only [goDocOfRecord] at hdec
                simp only [decode, hdec, Except.bind, decodeGoV1, Option.map, if_true]
                simp only [verify, isEntry]
                rw [if_neg (by simp), if_neg hk, if_neg (hs _)]
                simp only [verifyGoV1]
                rw [hv _]

def idVerifyT : String → String → List Nat → Bool := fun _ _ _ => true

def sdW : Signed := ⟨"log", .str "hello", .arr [], .arr [], ⟨"PK", 0⟩, 2⟩

def fW : FullV2 := ⟨sdW, "PK", "zID", "SIG"⟩

def gdW : GoV1Doc := ⟨"log", .str "hello", [], [], ⟨"PK", 0⟩, 2, "SIG", "PK", idnT.doc⟩

def envW3 : CodecEnv :=
  ⟨fun d => match d with | .v2s _ => [0] | .v2f _ => [1] | .gov1 _ => [2],
   fun bs => if bs = [1] then some (.v2f fW) else if bs = [2] then some (.gov1 gdW) else none,
   fun _ => 7, fun _ _ => "7", fun _ => some 7, fun _ => "idh", fun _ => none⟩

def eW2 : Entry :=
  ⟨"log", .str "hello", .arr [], .arr [], ⟨"PK", 0⟩, 2, "PK", "zID", "SIG", none, "7", [1]⟩

def grecW : GoV1Record :=
  ⟨"log", .str "hello", [], [], ⟨"PK", 0⟩, 2, "SIG", "PK", idnT, none, some "7", [2]⟩

def eW1 : Entry :=
  ⟨"log", .str "hello", .arr [], .arr [], ⟨"PK", 0⟩, 2, "PK", "zID", "SIG", some grecW,
    "7", [2]⟩

/-- C3: for every entry produced by `create` (non-null identity, logId,
payload; either dialect), `verify` applied to `decode` of the entry's
encoded bytes returns `true`: the signature check over the re-derived
dialect-appropriate signing image succeeds.  External collaborators obey
their capability contracts: the codec round-trips the entry's document
(`dec ∘ enc`), and the identity service accepts the identity's own
signatures; the public key and signatures are non-empty strings (an
empty one would trip `verify`'s falsy-field guards). -/
theorem claim_C3 :
    (∀ (env : CodecEnv) (sign : List Nat → String)
      (idVerify : String → String → List Nat → Bool) (idn : IdentityInst) (i : String)
      (p : JValue) (clock : Option ClockT) (next refs : Option JValue) (e : Entry),
      (create env sign (some idn) (some i) (some p) clock next refs "js-v2").1 = .ok e →
      env.dec e.bytes = some (.v2f (entryFullDoc e)) →
      (∀ m, idVerify (sign m) idn.doc.publicKey m = true) →
      idn.doc.publicKey ≠ "" → (∀ m, sign m ≠ "") →
      (decode env e.bytes).bind (verify env idVerify) = .ok true) ∧
    (∀ (env : CodecEnv) (sign : List Nat → String)
      (idVerify : String → String → List Nat → Bool) (idn : IdentityInst) (i : String)
      (p : JValue) (clock : Option ClockT) (next refs : Option JValue) (e : Entry),
      (create env sign (some idn) (some i) (some p) clock next refs "go-v1").1 = .ok e →
      (∀ g, e.entryGoV1 = some g → env.dec e.bytes = some (.gov1 (goDocOfRecord g))) →
      (∀ m, idVerify (sign m) idn.doc.publicKey m = true) →
      idn.doc.publicKey ≠ "" → (∀ m, sign m ≠ "") →
      (decode env e.bytes).bind (verify env idVerify) = .ok true) :=
  ⟨createV2_verify_roundtrip, createGoV1_verify_roundtrip⟩

/-- Witness for C3 in both dialects at a concrete entry (`{id: "log",
payload: "hello"}`) under a concrete codec. -/
theorem claim_C3_witness :
    ((create envW3 signT (some idnT) (some "log") (some (.str "hello")) none none none
        "js-v2").1 = .ok eW2 ∧
      (decode envW3 eW2.bytes).bind (verify envW3 idVerifyT) = .ok true) ∧
    ((create envW3 signT (some idnT) (some "log") (some (.str "hello")) none none none
        "go-v1").1 = .ok eW1 ∧
      (decode envW3 eW1.bytes).bind (verify envW3 idVerifyT) = .ok true) := by
  constructor
  · refine ⟨rfl, ?_⟩
    exact claim_C3.1 envW3 signT idVerifyT idnT "log" (.str "hello") none none none eW2 rfl
      rfl (fun m => rfl) (by decide) (fun m => by show ("SIG" : String) ≠ ""; decide)
  · refine ⟨rfl, ?_⟩
    refine claim_C3.2 envW3 signT idVerifyT idnT "log" (.str "hello") none none none eW1 rfl
      ?_ (fun m => rfl) (by decide) (fun m => by show ("SIG" : String) ≠ ""; decide)
    intro g hg
    have hgg : grecW = g := Option.some.inj hg
    subst hgg
    rfl

/-! ## Sync engine (src/unnamed/part_000: `SyncGoV1`)

The heads envelope `{address, heads}` carries each head in its
`EntryGoV1JSON` wire form (byte fields, CID-valued `hash`/`next`/`refs`),
per the typedef at the bottom of the module. -/

structure WireSigs where
  id : List Nat
  publicKey : List Nat

structure WireIdentity where
  id : String
  publicKey : List Nat
  signatures : WireSigs
  type : String

structure WireClock where
  id : List Nat
  time : Nat

/-- `EntryGoV1JSON`: a head as carried inside a heads envelope.
`payload` stays dynamic because `toUint8Array` passes any non-string
value through unchanged; a CID is a `Nat` as in `CodecEnv`. -/
structure WireHead where
  id : String
  payload : JValue
  identity : WireIdentity
  clock : WireClock
  next : List Nat
  refs : List Nat
  v : Nat
  key : List Nat
  sig : List Nat
  hash : Nat

/-- The heads envelope `{address, heads}`. -/
structure HeadsMsg where
  address : String
  heads : List WireHead

def hexDecodeE (s : String) : Except String (List Nat) :=
  match hexDecode s with
  | some bs => .ok bs
  | none => .error "fromString: invalid base16 input"

/-- `toUint8Array(data)` (no encoding): strings are utf-8 encoded,
anything else passes through. -/
def toUint8ArrayJV : JValue → JValue
  | .str s => .bytes (strToBytes s)
  | v => v

/-- `u8ToString(data)` (no encoding): strings pass through, byte arrays
are utf-8 decoded, anything else throws inside `uint8arrays`. -/
def u8ToStringJV : JValue → Except String JValue
  | .str s => .ok (.str s)
  | .bytes bs => .ok (.str (bytesToStr bs))
  | _ => .error "toString: not a Uint8Array"

/-- `toEntryGoV1JSONByEntryGoV1(entryGoV1)`: in-memory record → wire
head.  Hex-string fields are decoded to bytes (`base16`), the payload is
utf-8 encoded, the base32 hash string is parsed back to a CID; any
failure throws. -/
def toEntryGoV1JSONByEntryGoV1 (env : CodecEnv) (g : GoV1Record) :
    Except String WireHead := do
  let pk ← hexDecodeE g.identity.doc.publicKey
  let sid ← hexDecodeE g.identity.doc.signatures.id
  let spk ← hexDecodeE g.identity.doc.signatures.publicKey
  let cid0 ← hexDecodeE g.clock.id
  let key ← hexDecodeE g.key
  let sig ← hexDecodeE g.sig
  let hash ←
    match g.hash with
    | some h =>
        match env.cidParse h with
        | some c => Except.ok c
        | none => Except.error "CID.parse: invalid cid string"
    | none => Except.error "CID.parse: invalid cid string"
  pure ⟨g.id, toUint8ArrayJV g.payload,
    ⟨g.identity.doc.id, pk, ⟨sid, spk⟩, g.identity.doc.type⟩,
    ⟨cid0, g.clock.time⟩, g.next, g.refs, g.v, key, sig, hash⟩

/-- The record produced by `fromEntryGoV1JSONToEntryGoV1`: string-form
fields plus the base32 hash string. -/
structure GoV1WireRecord where
  id : String
  payload : JValue
  identity : IdentityDoc
  clock : ClockT
  next : List Nat
  refs : List Nat
  v : Nat
  key : String
  sig : String
  hash : String

/-- `fromEntryGoV1JSONToEntryGoV1(entry)`: wire head → in-memory record
(byte fields hex-encoded back to strings, hash rendered in base32). -/
def fromEntryGoV1JSONToEntryGoV1 (env : CodecEnv) (h : WireHead) :
    Except String GoV1WireRecord := do
  let payload ← u8ToStringJV h.payload
  pure ⟨h.id, payload,
    ⟨h.identity.id, hexEnc h.identity.publicKey,
      ⟨hexEnc h.identity.signatures.id, hexEnc h.identity.signatures.publicKey⟩,
      h.identity.type⟩,
    ⟨hexEnc h.clock.id, h.clock.time⟩, h.next, h.refs, h.v,
    hexEnc h.key, hexEnc h.sig, env.cidToStr "base32" h.hash⟩

def cidParseE (env : CodecEnv) (s : String) : Except String Nat :=
  match env.cidParse s with
  | some c => .ok c
  | none => .error "CID.parse: invalid cid string"

/-- The per-head loop of `parseMsg`: convert the wire head, parse its
advertised hash, null the `hash` slot and drop `bytes`, re-encode under
the IPLD codec, compare content ids.  A mismatch emits
`'sync entry hash error'` and `continue`s; a match pushes the re-encoded
bytes.  Returns `(delivered bytes in order, emitted errors in order)`. -/
def processHeads (env : CodecEnv) : List WireHead →
    Except String (List (List Nat) × List String)
  | [] => .ok ([], [])
  | h :: t => do
      let r ← fromEntryGoV1JSONToEntryGoV1 env h
      let entryHash ← cidParseE env r.hash
      let doc : GoV1Doc := ⟨r.id, r.payload, r.next, r.refs, r.clock, r.v, r.sig, r.key,
        r.identity⟩
      let bytes := env.enc (.gov1 doc)
      let rest ← processHeads env t
      if entryHash = env.cidOf bytes then .ok (bytes :: rest.1, rest.2)
      else .ok (rest.1, "sync entry hash error" :: rest.2)

/-- `parseMsg(value)`.  The destructuring
`let { address, heads = [] } = await marshaler.unmarshal(value)` shadows
the engine's own `address` binding (`engineAddress` here), so the guard
`if (address != address)` compares the decoded address with itself and
can never return early. -/
def parseMsg (engineAddress : String) (env : CodecEnv)
    (unmarshal : List Nat → Except String HeadsMsg) (value : List Nat) :
    Except String (List (List Nat) × List String) := do
  let msg ← unmarshal value
  if msg.address ≠ msg.address then .ok ([], [])
  else processHeads env msg.heads

/-- `builderMsg(entry)`: one head when an entry is given, otherwise the
log's heads; heads without a `entryGoV1` record are filtered out
(`.map(head => head?.entryGoV1).filter(Boolean)`), the rest converted to
wire form. -/
def builderMsgHeads (env : CodecEnv) (logHeads : List Entry) (entry : Option Entry) :
    Except String (List WireHead) :=
  (((match entry with
    | some e => [e]
    | none => logHeads : List Entry)).filterMap (fun e => e.entryGoV1)).mapM
    (toEntryGoV1JSONByEntryGoV1 env)

def builderMsg (env : CodecEnv) (address : String) (logHeads : List Entry)
    (entry : Option Entry) : Except String HeadsMsg := do
  let heads ← builderMsgHeads env logHeads entry
  pure ⟨address, heads⟩

/-- `add(entry)`: if started, `pubsub.publish(address, await
builderMsg(entry))`; the published pair is `(topic, marshaled
envelope)`.  `none` models no publish. -/
def add (env : CodecEnv) (address : String) (logHeads : List Entry)
    (started : Bool) (marshal : HeadsMsg → List Nat) (entry : Entry) :
    Except String (Option (String × List Nat)) :=
  if started then do
    let msg ← builderMsg env address logHeads (some entry)
    pure (some (address, marshal msg))
  else pure none

/-- The sync engine's mutable state: `started`, the peer set, the
direct-channel handler registration, the two pubsub listeners, the topic
subscription, and the work queue (as its pending tasks). -/
structure SyncState where
  started : Bool
  peers : List String
  handlerRegistered : Bool
  listenersAttached : Bool
  subscribed : Bool
  queue : List Unit

def initialSyncState : SyncState := ⟨false, [], false, false, false, []⟩

/-- `startSync`: if not started, register the protocol handler, attach
the two pubsub listeners, subscribe to the topic, set `started`. -/
def startSync (s : SyncState) : SyncState :=
  if s.started then s
  else ⟨true, s.peers, true, true, true, s.queue⟩

/-- `stopSync`: if started, clear `started`, drain the work queue
(pending tasks run to completion, then the queue is idle), remove both
listeners, unhandle the protocol, unsubscribe, and clear the peer set —
whatever the tasks did to it. -/
def stopSync (s : SyncState) : SyncState :=
  if s.started then ⟨false, [], false, false, false, []⟩ else s

/-! ## Claim C8 -/

/-- C8: from the initial stopped state, `start; stop` returns the engine
to the stopped state with an empty peer set, and both `start` and `stop`
are idempotent (a second consecutive call is a no-op). -/
theorem claim_C8 :
    stopSync (startSync initialSyncState) = initialSyncState ∧
    (∀ s, startSync (startSync s) = startSync s) ∧
    (∀ s, stopSync (stopSync s) = stopSync s) := by
  refine ⟨rfl, ?_, ?_⟩
  · intro s
    by_cases h : s.started
    · simp [startSync, h]
    · simp [startSync, h]
  · intro s
    by_cases h : s.started
    · simp [stopSync, h]
    · simp [stopSync, h]

/-! ## Claim C9 -/

/-- C9: `parseMsg` processes every envelope regardless of its `address`
field and regardless of the engine's own address: the destructured
`address` binding shadows the engine's, so the guard compares the
decoded address with itself and can never reject an envelope addressed
to a different log. -/
theorem claim_C9 (a1 a2 : String) (env : CodecEnv)
    (unmarshal : List Nat → Except String HeadsMsg) (value : List Nat) :
    parseMsg a1 env unmarshal value = parseMsg a2 env unmarshal value ∧
    ∀ msg, unmarshal value = .ok msg →
      parseMsg a1 env unmarshal value = processHeads env msg.heads := by
  constructor
  · rfl
  · intro msg hmsg
    simp [parseMsg, hmsg, exceptBind_ok]

/-! ## Claim C2 -/

/-- Total companion of `u8ToStringJV` on coercible payloads. -/
def wirePayloadStr : JValue → JValue
  | .str s => .str s
  | .bytes bs => .str (bytesToStr bs)
  | v => v

def payloadCoercible : JValue → Bool
  | .str _ => true
  | .bytes _ => true
  | _ => false

/-- The document whose re-encoding `parseMsg` compares against the
advertised hash. -/
def headDoc (h : WireHead) : GoV1Doc :=
  ⟨h.id, wirePayloadStr h.payload, h.next, h.refs, ⟨hexEnc h.clock.id, h.clock.time⟩, h.v,
    hexEnc h.sig, hexEnc h.key,
    ⟨h.identity.id, hexEnc h.identity.publicKey,
      ⟨hexEnc h.identity.signatures.id, hexEnc h.identity.signatures.publicKey⟩,
      h.identity.type⟩⟩

def headBytes (env : CodecEnv) (h : WireHead) : List Nat := env.enc (.gov1 (headDoc h))

def headMatches (env : CodecEnv) (h : WireHead) : Bool :=
  h.hash = env.cidOf (headBytes env h)

/-- The go-v1 document `parseMsg` re-encodes for a wire head (after
nulling `hash` and dropping `bytes`). -/
theorem processHeads_spec (env : CodecEnv) (heads : List WireHead)
    (hok : ∀ h ∈ heads, payloadCoercible h.payload = true ∧
      env.cidParse (env.cidToStr "base32" h.hash) = some h.hash) :
    processHeads env heads = .ok
      (heads.filterMap (fun h =>
        if headMatches env h then some (headBytes env h) else none),
       heads.filterMap (fun h =>
        if headMatches env h then none else some "sync entry hash error")) := by
  induction heads with
  | nil => rfl
  | cons h t ih =>
      obtain ⟨hp, hc⟩ := hok h (List.mem_cons_self h t)
      have ht := ih (fun x hx => hok x (List.mem_cons_of_mem h hx))
      cases hpv : h.payload with
      | str s =>
          simp only [processHeads, fromEntryGoV1JSONToEntryGoV1, u8ToStringJV, hpv,
            exceptBind_ok, exceptPure, cidParseE, hc, ht, headMatches, headBytes, headDoc,
            wirePayloadStr, List.filterMap_cons]
          by_cases hm : h.hash = env.cidOf (env.enc (.gov1 (headDoc h)))
          · simp [headDoc, wirePayloadStr, hpv] at hm
            simp [hm]
          · simp [headDoc, wirePayloadStr, hpv] at hm
            simp [hm]
      | bytes bs =>
          simp only [processHeads, fromEntryGoV1JSONToEntryGoV1, u8ToStringJV, hpv,
            exceptBind_ok, exceptPure, cidParseE, hc, ht, headMatches, headBytes, headDoc,
            wirePayloadStr, List.filterMap_cons]
          by_cases hm : h.hash = env.cidOf (env.enc (.gov1 (headDoc h)))
          · simp [headDoc, wirePayloadStr, hpv] at hm
            simp [hm]
          · simp [headDoc, wirePayloadStr, hpv] at hm
            simp [hm]
      | null => rw [hpv] at hp; simp [payloadCoercible] at hp
      | bool b => rw [hpv] at hp; simp [payloadCoercible] at hp
      | num n => rw [hpv] at hp; simp [payloadCoercible] at hp
      | cidv c => rw [hpv] at hp; simp [payloadCoercible] at hp
      | arr xs => rw [hpv] at hp; simp [payloadCoercible] at hp
      | obj fs => rw [hpv] at hp; simp [payloadCoercible] at hp

/-- C2: for every incoming heads envelope (stream handshake and pubsub
update both parse through `parseMsg`), each head whose recomputed
content id (re-encoding under the IPLD codec) differs from its
advertised hash emits a `'sync entry hash error'` error event and is not
delivered, every matching head is delivered (its re-encoded bytes are
handed to `onSynced` in envelope order by `receiveHeads` and
`handleUpdateMessage`), and a bad head does not stop the rest: the
delivered list is exactly the in-order matching heads and the error list
carries one event per mismatching head.  Heads are well-formed (payload
a string or byte array, advertised base32 hash parseable back to its
CID) — a malformed head would instead abort the whole exchange with a
thrown error. -/
theorem claim_C2 (a : String) (env : CodecEnv)
    (unmarshal : List Nat → Except String HeadsMsg) (value : List Nat) (msg : HeadsMsg)
    (hmsg : unmarshal value = .ok msg)
    (hok : ∀ h ∈ msg.heads, payloadCoercible h.payload = true ∧
      env.cidParse (env.cidToStr "base32" h.hash) = some h.hash) :
    parseMsg a env unmarshal value = .ok
      (msg.heads.filterMap (fun h =>
        if headMatches env h then some (headBytes env h) else none),
       msg.heads.filterMap (fun h =>
        if headMatches env h then none else some "sync entry hash error")) := by
  have hred : parseMsg a env unmarshal value = processHeads env msg.heads := by
    simp [parseMsg, hmsg, exceptBind_ok]
  rw [hred]
  exact processHeads_spec env msg.heads hok

def envC2 : CodecEnv :=
  ⟨fun _ => [2], fun _ => none, fun _ => 7, fun _ c => String.mk (List.replicate c 'z'),
    fun s => some s.length, fun _ => "idh", fun _ => none⟩

def headT : WireHead :=
  ⟨"log", .str "hello", ⟨"idH", [10], ⟨[11], [12]⟩, "t"⟩, ⟨[13], 0⟩, [], [], 2, [10], [14], 7⟩

def headBad : WireHead :=
  ⟨"log", .str "hello", ⟨"idH", [10], ⟨[11], [12]⟩, "t"⟩, ⟨[13], 0⟩, [], [], 2, [10], [14], 8⟩

def unmC2 : List Nat → Except String HeadsMsg := fun _ => .ok ⟨"other", [headT, headBad]⟩

/-- Witness for C2: a two-head envelope — one head whose advertised CID
matches the recomputed one, one whose does not — delivers exactly the
good head's bytes and emits exactly one error. -/
theorem claim_C2_witness :
    unmC2 [0] = .ok ⟨"other", [headT, headBad]⟩ ∧
    parseMsg "mine" envC2 unmC2 [0] = .ok ([[2]], ["sync entry hash error"]) := by
  refine ⟨rfl, ?_⟩
  have h := claim_C2 "mine" envC2 unmC2 [0] ⟨"other", [headT, headBad]⟩ rfl ?hok
  case hok =>
    intro x hx
    simp [unmC2] at hx
    rcases hx with rfl | rfl
    · exact ⟨rfl, rfl⟩
    · exact ⟨rfl, rfl⟩
  rw [h]
  rfl

/-- Witness for C9: an envelope whose address (`"other"`) differs from
the engine's (`"mine"`) is still fully processed. -/
theorem claim_C9_witness :
    unmC2 [0] = .ok ⟨"other", [headT, headBad]⟩ ∧
    parseMsg "mine" envC2 unmC2 [0] = processHeads envC2 [headT, headBad] := by
  refine ⟨rfl, ?_⟩
  exact (claim_C9 "mine" "other" envC2 unmC2 [0]).2 ⟨"other", [headT, headBad]⟩ rfl

/-! ## Claim C1 -/

/-- A concrete marshaler for closed evaluations: the published bytes
expose the envelope's head count. -/
def marshalLen : HeadsMsg → List Nat := fun m => [m.heads.length]

/-- C1, counterexample: `add(E)` does *not* always publish an envelope
whose heads list contains exactly the single entry `E`.  `builderMsg`
maps each head to `head?.entryGoV1` and filters out the misses, so for
an entry with no attached go-v1 record (any `js-v2` entry, e.g. `eW2`
produced by `create` in the C3 witness) the engine — although started —
publishes an envelope with an *empty* heads list. -/
theorem claim_C1_counterexample :
    eW2.entryGoV1 = none ∧
    builderMsg envT "log" [] (some eW2) = .ok ⟨"log", []⟩ ∧
    add envT "log" [] true marshalLen eW2 = .ok (some ("log", marshalLen ⟨"log", []⟩)) := by
  exact ⟨rfl, rfl, rfl⟩

/-- C1, amended: when the engine is not started, `add(E)` publishes
nothing.  When started, `add(E)` publishes to the topic `log.id` the
marshaled heads envelope whose heads list is `[wire form of
E.entryGoV1]` when `E` carries a go-v1 record (and its wire conversion
succeeds), and is empty when `E` carries none. -/
theorem claim_C1_amended (env : CodecEnv) (address : String) (logHeads : List Entry)
    (marshal : HeadsMsg → List Nat) (entry : Entry) (started : Bool) :
    (started = false → add env address logHeads started marshal entry = .ok none) ∧
    (started = true → entry.entryGoV1 = none →
      add env address logHeads started marshal entry
        = .ok (some (address, marshal ⟨address, []⟩))) ∧
    (started = true → ∀ g w, entry.entryGoV1 = some g →
      toEntryGoV1JSONByEntryGoV1 env g = .ok w →
      add env address logHeads started marshal entry
        = .ok (some (address, marshal ⟨address, [w]⟩))) := by
  refine ⟨?_, ?_, ?_⟩
  · intro h
    subst h
    simp [add, exceptPure]
  · intro h hg
    subst h
    simp [add, builderMsg, builderMsgHeads, hg, List.mapM.loop, exceptBind_ok, exceptPure]
  · intro h g w hg hw
    subst h
    simp [add, builderMsg, builderMsgHeads, hg, hw, List.mapM.loop, exceptBind_ok, exceptPure]

def idnH : IdentityInst := ⟨⟨"idH", "0a", ⟨"0b", "0c"⟩, "t"⟩, "zH"⟩

def grecH : GoV1Record :=
  ⟨"log", .str "hello", [], [], ⟨"0d", 0⟩, 2, "0e", "0a", idnH, none, some "7", [2]⟩

def entryH : Entry :=
  ⟨"log", .str "hello", .arr [], .arr [], ⟨"PK", 0⟩, 2, "0a", "zH", "0e", some grecH,
    "7", [2]⟩

def wireH : WireHead :=
  ⟨"log", .bytes (strToBytes "hello"), ⟨"idH", [10], ⟨[11], [12]⟩, "t"⟩, ⟨[13], 0⟩,
    [], [], 2, [10], [14], 7⟩

/-- Witness for the amended C1: not-started publishes nothing; started
publishes the one-head envelope for an entry carrying a go-v1 record. -/
theorem claim_C1_witness :
    add envW3 "log" [] false marshalLen entryH = .ok none ∧
    toEntryGoV1JSONByEntryGoV1 envW3 grecH = .ok wireH ∧
    add envW3 "log" [] true marshalLen entryH
      = .ok (some ("log", marshalLen ⟨"log", [wireH]⟩)) := by
  refine ⟨?_, rfl, ?_⟩
  · exact (claim_C1_amended envW3 "log" [] marshalLen entryH false).1 rfl
  · exact (claim_C1_amended envW3 "log" [] marshalLen entryH true).2.2 rfl grecH wireH rfl rfl

/-! ## Direct channel (src/channel/directchannel.js) and Claim C7 -/

def varintDecodeAux : List Nat → Nat → Nat → Nat → Option (Nat × Nat)
  | [], _, _, _ => none
  | b :: rest, shift, acc, n =>
      if b < 128 then some (acc + b * 2 ^ shift, n + 1)
      else varintDecodeAux rest (shift + 7) (acc + b % 128 * 2 ^ shift) (n + 1)

/-- `varint.decode`: unsigned LEB128 — little-endian 7-bit groups, high
bit as continuation.  Returns `(value, bytes read)`; fails (throws) when
the buffer ends inside a continuation. -/
def varintDecode (bs : List Nat) : Option (Nat × Nat) := varintDecodeAux bs 0 0 0

/-- The payload of a `'channel-message'` event. -/
structure ChannelMessage where
  remotePeer : String
  bytes : List Nat

namespace DirectChannel

/-- `DirectChannel.handle({connection, stream})` for a stream carrying a
varint length frame and a payload frame: decode the length, and if it
differs from the payload's byte length return silently (no event; the
stream is still closed); otherwise emit exactly one `'channel-message'`
with `{remotePeer, bytes}`.  Result: `(events emitted, stream closed)`;
a varint decode failure propagates as a thrown error (and skips
`stream.close()`, which has no `try`/`finally` around the pipe). -/
def handle (remotePeer : String) (frame1 frame2 : List Nat) :
    Except String (List ChannelMessage × Bool) :=
  match varintDecode frame1 with
  | none => .error "varint decode error"
  | some (len, _) =>
      if len ≠ frame2.length then .ok ([], true)
      else .ok ([⟨remotePeer, frame2⟩], true)

end DirectChannel

/-- C7: when the announced varint length differs from the received
payload's byte length the message is silently discarded — no
`'channel-message'` (nor any other) event, stream closed; when they
agree, exactly one `'channel-message'` event carrying
`{remotePeer, bytes}` is emitted. -/
theorem claim_C7 (rp : String) (frame1 frame2 : List Nat) (len k : Nat)
    (hdec : varintDecode frame1 = some (len, k)) :
    (len ≠ frame2.length → DirectChannel.handle rp frame1 frame2 = .ok ([], true)) ∧
    (len = frame2.length →
      DirectChannel.handle rp frame1 frame2 = .ok ([⟨rp, frame2⟩], true)) := by
  constructor <;> intro h <;> simp [DirectChannel.handle, hdec, h]

/-- Witness for C7: frame `[3]` announces 3 bytes; a 2-byte payload is
dropped, a 3-byte payload is delivered. -/
theorem claim_C7_witness :
    varintDecode [3] = some (3, 1) ∧
    DirectChannel.handle "p" [3] [9, 9] = .ok ([], true) ∧
    DirectChannel.handle "p" [3] [9, 9, 9] = .ok ([⟨"p", [9, 9, 9]⟩], true) := by
  refine ⟨by decide, ?_, ?_⟩
  · exact (claim_C7 "p" [3] [9, 9] 3 1 (by decide)).1 (by decide)
  · exact (claim_C7 "p" [3] [9, 9, 9] 3 1 (by decide)).2 (by decide)

/-! ## Marshaler (src/marshaler.js) and Claim C4

`src/marshaler.js` carries two variants: the module-level
`{marshal, unmarshal}` pair (first part of the file) and the
`builderMarshaler(ver)` factory (second part; the one `SyncGoV1` can be
handed).  The go-v1 branch (canonical JSON + reviver + the
`heads[*].identity.id` fix-ups) is abstracted as the `goUnmarshal`
capability; the claim concerns the js-v2 branch only. -/

/-- The result of an unmarshal: either the payload passed through
unchanged (js-v2: the in-memory record is the wire form) or a message
parsed from bytes (go-v1). -/
inductive UnmarshalOut (α : Type) where
  | passthrough (payload : α)
  | parsed (msg : HeadsMsg)

/-- `unmarshal(payload, address, ver)` from the module-level pair.  Its
js-v2 branch is `return bytes` — but no `bytes` identifier is in scope
(the parameter is `payload`), so reaching it throws a
`ReferenceError`. -/
def unmarshal {α : Type} (goUnmarshal : α → Except String (UnmarshalOut α))
    (payload : α) (address : String) (ver : String) : Except String (UnmarshalOut α) :=
  if ver = "go-v1" then goUnmarshal payload
  else .error "ReferenceError: bytes is not defined"

/-- `builderMarshaler(ver).unmarshal(payload)`: the js-v2 branch
correctly returns the payload unchanged. -/
def builderMarshalerUnmarshal {α : Type} (goUnmarshal : α → Except String (UnmarshalOut α))
    (ver : String) (payload : α) : Except String (UnmarshalOut α) :=
  if ver = "go-v1" then goUnmarshal payload
  else .ok (.passthrough payload)

/-- C4 (code bug): in the js-v2 dialect the module-level `unmarshal`
never returns the payload — it always throws, because its `return bytes`
references an undeclared identifier (the parameter is named `payload`).
The sibling `builderMarshaler` copy behaves as the claim states,
returning the payload unchanged, which is clearly the intent. -/
theorem claim_C4 :
    (∀ (α : Type) (goUnmarshal : α → Except String (UnmarshalOut α)) (payload : α)
      (address : String),
      unmarshal goUnmarshal payload address "js-v2"
        = .error "ReferenceError: bytes is not defined") ∧
    (∀ (α : Type) (goUnmarshal : α → Except String (UnmarshalOut α)) (payload : α),
      builderMarshalerUnmarshal goUnmarshal "js-v2" payload = .ok (.passthrough payload)) := by
  constructor
  · intro α g p a
    simp [unmarshal]
  · intro α g p
    simp [builderMarshalerUnmarshal]
